import Mathlib

/-!
Verification of the turbo logging/tracing pipeline (`crates/turborepo-lib/src/tracing.rs`)
and the content-wrapping asset (`crates/turbopack-core/src/wrapper_asset.rs`).

The Rust code is shallowly embedded:
* severity levels and the `tracing_subscriber::EnvFilter` directive semantics
  (target-prefix matching, most-specific-directive-wins, same-target directives
  replace each other) are modelled as explicit lists of directives;
* the `env_filter` closure of `TurboSubscriber::new_with_verbosity` is translated
  line by line on top of that model;
* the `TurboFormatter` is a pure function from an event (level, target, fields)
  and a pre-formatted timestamp string to the emitted text;
* the reconfiguration methods (`set_daemon_logger`, `enable_chrome_tracing`,
  `enable_opentelemetry_tracing`) are state-transition functions on a record of
  the subscriber's slots and guards, with the liveness of the underlying
  registry (the only failure source of `reload`) passed as an explicit input;
* `Drop for TurboSubscriber` is a function from the outcomes of the fallible
  profiling steps to the record of its observable effects.
-/

set_option maxHeartbeats 1000000

namespace Turbo

/-! ### Severity levels

`tracing::Level`, ordered as in `tracing`: a `LevelFilter` is a natural number
with 0 = OFF, 1 = ERROR, 2 = WARN, 3 = INFO, 4 = DEBUG, 5 = TRACE; an event is
admitted by a threshold `f` iff its level's rank is `≤ f`. -/

inductive TraceLevel where
  | error
  | warn
  | info
  | debug
  | trace
deriving DecidableEq, Repr

/-- The rank of an event level on the `LevelFilter` scale. -/
def TraceLevel.toNat : TraceLevel → Nat
  | .error => 1
  | .warn => 2
  | .info => 3
  | .debug => 4
  | .trace => 5

/-- `Display` for `tracing::Level`, used by the DEBUG/TRACE branch of the formatter. -/
def TraceLevel.text : TraceLevel → String
  | .error => "ERROR"
  | .warn => "WARN"
  | .info => "INFO"
  | .debug => "DEBUG"
  | .trace => "TRACE"

/-! ### EnvFilter directives

Model of `tracing_subscriber::EnvFilter` restricted to static `target=LEVEL`
directives (the only kind this code and its claims use).  A directive pairs an
optional target prefix with a `LevelFilter` rank.  The filter is a list of
directives with pairwise-distinct targets; `add_directive` overwrites the
directive with the same target (same specificity) and otherwise inserts.  An
event is enabled iff the most specific directive whose target is a string
prefix of the event target (the `StaticDirective::cares_about` test) has a
level at or above the event's level; with no matching directive the event is
disabled. -/

structure Directive where
  target : Option String
  level : Nat
deriving DecidableEq, Repr

/-- Specificity of a directive's target: untargeted directives are least
specific, targeted ones are ordered by target length. -/
def specOf : Option String → Nat
  | none => 0
  | some s => s.length + 1

/-- `StaticDirective::cares_about`: an untargeted directive matches every
event; a targeted one matches iff its target is a string prefix of the
event's target. -/
def caresAbout (d : Directive) (t : String) : Bool :=
  match d.target with
  | none => true
  | some p => p.data.isPrefixOf t.data

/-- `EnvFilter::add_directive` / `DirectiveSet::add`: a directive with the same
target (hence the same specificity) overwrites the existing one, otherwise the
directive is inserted.  (The Rust vector is kept sorted by specificity; the
position is irrelevant here because lookup selects by specificity.) -/
def addDirective (ds : List Directive) (d : Directive) : List Directive :=
  if ds.any (fun e => decide (e.target = d.target)) then
    ds.map (fun e => if e.target = d.target then d else e)
  else
    d :: ds

/-- The most specific directive matching target `t`, if any (ties broken
towards the front; targets are pairwise distinct in every filter built below,
so ties cannot occur between distinct directives). -/
def bestFor : List Directive → String → Option Directive
  | [], _ => none
  | d :: ds, t =>
    match bestFor ds t with
    | none => if caresAbout d t then some d else none
    | some e =>
      if caresAbout d t then
        if specOf e.target > specOf d.target then some e else some d
      else some e

/-- `EnvFilter::enabled` for events: the most specific matching directive
decides; no matching directive disables the event. -/
def enabledAt (ds : List Directive) (t : String) (l : TraceLevel) : Bool :=
  match bestFor ds t with
  | some d => l.toNat ≤ d.level
  | none => false

/-! ### The `env_filter` closure of `TurboSubscriber::new_with_verbosity`

The `TURBO_LOG_VERBOSITY` environment variable is represented by the list of
directives it parses to (`from_env_lossy` drops unparsable pieces): `none`
means the variable is unset, `some []` that it parses to no directives.  In
both of those cases the builder's default directive (the `level` argument of
the closure) is used; otherwise the parsed directives are added in order. -/

/-- The `level_override` match on `verbosity`: 0 = no override, 1 = INFO,
2 = DEBUG, anything else = TRACE. -/
def levelOverride (verbosity : Nat) : Option Nat :=
  match verbosity with
  | 0 => none
  | 1 => some 3
  | 2 => some 4
  | _ => some 5

/-- `EnvFilter::builder().with_default_directive(level).with_env_var("TURBO_LOG_VERBOSITY").from_env_lossy()`:
the default directive is used exactly when the environment variable yields no
directives; otherwise the parsed directives are added in order. -/
def fromEnvLossy (level : Nat) (env : Option (List Directive)) : List Directive :=
  match env with
  | none => [⟨none, level⟩]
  | some ds => if ds.isEmpty then [⟨none, level⟩] else ds.foldl addDirective []

/-- The three fixed noise-suppression directives:
`.add_directive("reqwest=error").add_directive("hyper=warn").add_directive("h2=warn")`. -/
def withNoiseDirectives (ds : List Directive) : List Directive :=
  addDirective (addDirective (addDirective ds ⟨some "reqwest", 1⟩) ⟨some "hyper", 2⟩)
    ⟨some "h2", 2⟩

/-- `if let Some(max_level) = level_override { filter.add_directive(max_level.into()) } else { filter }`:
a bare (untargeted) directive for the override level, if any. -/
def applyOverride (ds : List Directive) (o : Option Nat) : List Directive :=
  match o with
  | some m => addDirective ds ⟨none, m⟩
  | none => ds

/-- The `env_filter` closure: default directive / env directives, then the
three noise caps, then the optional bare verbosity override. -/
def env_filter (verbosity : Nat) (env : Option (List Directive)) (level : Nat) :
    List Directive :=
  applyOverride (withNoiseDirectives (fromEnvLossy level env)) (levelOverride verbosity)

/-- The filter attached to the stderr layer: `env_filter(LevelFilter::WARN)`. -/
def stderrFilter (verbosity : Nat) (env : Option (List Directive)) : List Directive :=
  env_filter verbosity env 2

/-- The filter attached to the daemon (rotating file) layer:
`env_filter(LevelFilter::INFO)`. -/
def daemonFilter (verbosity : Nat) (env : Option (List Directive)) : List Directive :=
  env_filter verbosity env 3

/-! ### The terminal formatter (`TurboFormatter::format_event`)

An event carries a level, a target and its fields in visiting order; only
fields named "message" are rendered.  The local timestamp used by the
DEBUG/TRACE branch is produced by `chrono` outside the embedded code, so the
already-formatted timestamp string is an explicit argument.  ANSI styling by
`owo_colors` is modelled as an SGR escape wrapper; every claim below fixes
`is_ansi = false`, where no escape is emitted. -/

structure FmtEvent where
  level : TraceLevel
  target : String
  fields : List (String × String)

/-- SGR wrapper standing in for `owo_colors`' fg/bg styling. -/
def ansiWrap (codes : String) (s : String) : String :=
  "\x1b[" ++ codes ++ "m" ++ s ++ "\x1b[0m"

/-- `write_string::<FG, BG>`: the (optionally colorized) literal followed by one space. -/
def write_string (colorize : Bool) (codes : String) (value : String) : String :=
  if colorize then ansiWrap codes value ++ " " else value ++ " "

/-- `write_message::<FG, BG>` via `MessageVisitor`: every field named
"message" is appended (optionally colorized), then a newline. -/
def write_message (colorize : Bool) (codes : String) (e : FmtEvent) : String :=
  (e.fields.foldl
      (fun acc f =>
        if f.1 == "message" then acc ++ (if colorize then ansiWrap codes f.2 else f.2)
        else acc)
      "") ++ "\n"

/-- `TurboFormatter::format_event`. -/
def format_event (is_ansi : Bool) (now : String) (e : FmtEvent) : String :=
  match e.level with
  | .error =>
    write_string is_ansi "31;40" " ERROR " ++ write_message is_ansi "31;49" e
  | .warn =>
    write_string is_ansi "33;40" " WARNING " ++ write_message is_ansi "33;49" e
  | .info => write_message is_ansi "39;49" e
  | _ =>
    now ++ " [" ++ e.level.text ++ "] " ++ e.target ++ ": " ++
      write_message is_ansi "39;49" e

/-! ### Subscriber state and the reconfiguration methods

`reload::Handle::reload` fails exactly when the subscriber the handle points
into no longer exists (`reload::Error::SubscriberGone`) and mutates nothing in
that case; whether the subscriber is still alive is passed as an explicit
input.  Guards and layers are modelled by small records keyed by their
construction inputs. -/

inductive ReloadError where
  | subscriberGone
deriving DecidableEq, Repr

structure RollingFileAppender where
  id : Nat
deriving DecidableEq, Repr

structure NonBlockingWriter where
  src : Nat
deriving DecidableEq, Repr

structure WorkerGuard where
  src : Nat
deriving DecidableEq, Repr

/-- `tracing_appender::non_blocking`: a writer/guard pair for the appender. -/
def non_blocking (a : RollingFileAppender) : NonBlockingWriter × WorkerGuard :=
  (⟨a.id⟩, ⟨a.id⟩)

structure DaemonLogLayer where
  writer : NonBlockingWriter
  ansi : Bool
deriving DecidableEq, Repr

structure ChromeLogLayer where
  file : String
  include_args : Bool
  include_locations : Bool
deriving DecidableEq, Repr

structure FlushGuard where
  file : String
deriving DecidableEq, Repr

structure OtelConfig where
  traceparent : Option String
  destination : Option String
deriving DecidableEq, Repr

/-- The mutable slots and guards of `TurboSubscriber`. -/
structure TurboState where
  daemon_layer : Option DaemonLogLayer
  daemon_guard : Option WorkerGuard
  chrome_layer : Option ChromeLogLayer
  chrome_guard : Option FlushGuard
  otel_guard : Option Nat
deriving DecidableEq, Repr

/-- `TurboSubscriber::set_daemon_logger`: build the non-blocking writer and the
file layer, reload the daemon slot (`?` propagates the failure before the guard
is touched), then store the new guard. -/
def set_daemon_logger (st : TurboState) (appender : RollingFileAppender) (alive : Bool) :
    Except ReloadError Unit × TurboState :=
  let wg := non_blocking appender
  let layer : DaemonLogLayer := { writer := wg.1, ansi := false }
  if alive then
    (Except.ok (), { st with daemon_layer := some layer, daemon_guard := some wg.2 })
  else
    (Except.error ReloadError.subscriberGone, st)

/-- `TurboSubscriber::enable_chrome_tracing`: build the chrome layer/guard pair
(locations always included), reload the chrome slot (`?` propagates the failure
before the guard is touched), then store the new guard. -/
def enable_chrome_tracing (st : TurboState) (to_file : String) (include_args : Bool)
    (alive : Bool) : Except ReloadError Unit × TurboState :=
  let layer : ChromeLogLayer :=
    { file := to_file, include_args := include_args, include_locations := true }
  let guard : FlushGuard := ⟨to_file⟩
  if alive then
    (Except.ok (), { st with chrome_layer := some layer, chrome_guard := some guard })
  else
    (Except.error ReloadError.subscriberGone, st)

/-- `TurboSubscriber::enable_opentelemetry_tracing`: the whole body is
commented out in the source; it returns `Ok(())` and does nothing. -/
def enable_opentelemetry_tracing (st : TurboState) (config : OtelConfig) :
    Except ReloadError Unit × TurboState :=
  (Except.ok (), st)

/-- `OtelConfig::flatten` (the `println!` side effect is not part of the
returned value). -/
def OtelConfig.flatten (c : OtelConfig) : Option (String × Option String) :=
  c.destination.map (fun destination => (destination, c.traceparent))

/-! ### `Drop for TurboSubscriber`

The drop body is a straight line over the fallible profiling steps
(`report().build()`, `File::create("pprof.pb")`, `report.pprof()`,
`profile.encode`, `file.write_all`); the outcome of each is an input, and the
output records whether the body panicked, what it logged, and whether it
reached the explicit release of the OpenTelemetry guard and the
`shutdown_tracer_provider()` call. -/

structure DropEffects where
  panicked : Bool
  logged : List String
  otelGuardTaken : Bool
  tracerShutdown : Bool
deriving DecidableEq, Repr

/-- The body of `Drop::drop` with the `pprof` feature modelled as a runtime
flag.  `createOk = false` hits the `File::create("pprof.pb").unwrap()`;
`pprofOk = false` hits the `let Ok(profile) = report.pprof() else { ...; return; }`. -/
def turboDrop (pprofEnabled buildOk createOk pprofOk encodeOk writeOk : Bool) :
    DropEffects :=
  if pprofEnabled then
    if buildOk then
      if createOk then
        if pprofOk then
          { panicked := false
            logged :=
              (if encodeOk then [] else ["failed to encode pprof profile"]) ++
                (if writeOk then [] else ["failed to write pprof profile"])
            otelGuardTaken := true
            tracerShutdown := true }
        else
          { panicked := false
            logged := ["failed to generate pprof report"]
            otelGuardTaken := false
            tracerShutdown := false }
      else
        { panicked := true, logged := [], otelGuardTaken := false, tracerShutdown := false }
    else
      { panicked := false
        logged := ["failed to generate pprof report"]
        otelGuardTaken := true
        tracerShutdown := true }
  else
    { panicked := false, logged := [], otelGuardTaken := true, tracerShutdown := true }

/-! ### `WrapperAsset` (`turbopack-core/src/wrapper_asset.rs`)

`AssetVc` is dynamic dispatch: a wrapped asset is represented by the record of
its method results.  `FileSystemPathVc::join` lives outside `src/`. -/

structure AssetReference where
  id : Nat
deriving DecidableEq, Repr

/-- `AssetReferencesVc::empty()`. -/
def AssetReferences.empty : List AssetReference := []

structure FileSystemPath where
  segments : List String
deriving DecidableEq, Repr

/-- Modelled from the spec: `FileSystemPathVc::join` is outside `src/`; per the
source doc comment ("It's path will be `wrapper_name` below the original
path") joining appends one name below the path. -/
def FileSystemPath.join (p : FileSystemPath) (name : String) : FileSystemPath :=
  ⟨p.segments ++ [name]⟩

structure AssetContent where
  data : String
deriving DecidableEq, Repr

/-- The `Asset`-trait view of an asset: its `path()`, `content()` and
`references()` results. -/
structure AssetRecord where
  path : FileSystemPath
  content : AssetContent
  references : List AssetReference
deriving DecidableEq, Repr

structure WrapperAsset where
  asset : AssetRecord
  wrapper_name : String
  content : AssetContent
deriving DecidableEq, Repr

/-- `WrapperAssetVc::new`. -/
def WrapperAsset.new (asset : AssetRecord) (wrapper_name : String)
    (content : AssetContent) : WrapperAsset :=
  { asset := asset, wrapper_name := wrapper_name, content := content }

/-- The `impl Asset for WrapperAsset` block: `path()` joins the wrapped
asset's path with `wrapper_name`, `content()` returns the stored content,
`references()` is empty. -/
def WrapperAsset.toAsset (w : WrapperAsset) : AssetRecord :=
  { path := w.asset.path.join w.wrapper_name
    content := w.content
    references := AssetReferences.empty }

/-! ### Directive-set lemmas

Every filter built by `env_filter` has pairwise-distinct targets (the Rust
`DirectiveSet` keeps one directive per target/specificity), and on such lists
`bestFor` returns the unique most specific matching directive. -/

/-- Targets are pairwise distinct. -/
def TargetsNodup (ds : List Directive) : Prop :=
  List.Pairwise (fun a b => a.target ≠ b.target) ds

theorem mem_addDirective_self (ds : List Directive) (d : Directive) :
    d ∈ addDirective ds d := by
  unfold addDirective
  split
  · next hany =>
    obtain ⟨e, he, hbeq⟩ := List.any_eq_true.mp hany
    have ht : e.target = d.target := of_decide_eq_true hbeq
    exact List.mem_map.mpr ⟨e, he, by simp [ht]⟩
  · exact List.mem_cons_self _ _

theorem mem_addDirective_of_ne {ds : List Directive} {e : Directive} (d : Directive)
    (he : e ∈ ds) (hne : e.target ≠ d.target) : e ∈ addDirective ds d := by
  unfold addDirective
  split
  · exact List.mem_map.mpr ⟨e, he, by simp [hne]⟩
  · exact List.mem_cons_of_mem _ he

theorem mem_of_mem_addDirective {ds : List Directive} {d e : Directive}
    (h : e ∈ addDirective ds d) : e = d ∨ (e ∈ ds ∧ e.target ≠ d.target) := by
  unfold addDirective at h
  split at h
  · obtain ⟨a, ha, hae⟩ := List.mem_map.mp h
    by_cases hat : a.target = d.target
    · rw [if_pos hat] at hae
      exact Or.inl hae.symm
    · rw [if_neg hat] at hae
      exact Or.inr ⟨hae ▸ ha, hae ▸ hat⟩
  · next hany =>
    rcases List.mem_cons.mp h with rfl | hmem
    · exact Or.inl rfl
    · refine Or.inr ⟨hmem, fun hcon => ?_⟩
      exact hany (List.any_eq_true.mpr ⟨e, hmem, decide_eq_true hcon⟩)

theorem targetsNodup_addDirective {ds : List Directive} (d : Directive)
    (h : TargetsNodup ds) : TargetsNodup (addDirective ds d) := by
  have key : ∀ x : Directive, (if x.target = d.target then d else x).target = x.target := by
    intro x
    by_cases hx : x.target = d.target
    · rw [if_pos hx, hx]
    · rw [if_neg hx]
  unfold TargetsNodup addDirective
  split
  · rw [List.pairwise_map]
    refine h.imp ?_
    intro a b hab
    rw [key a, key b]
    exact hab
  · next hany =>
    refine List.Pairwise.cons (fun e he hcon => ?_) h
    exact hany (List.any_eq_true.mpr ⟨e, he, decide_eq_true hcon.symm⟩)

theorem bestFor_eq_none {ds : List Directive} {t : String} (h : bestFor ds t = none) :
    ∀ a ∈ ds, caresAbout a t = false := by
  induction ds with
  | nil => simp
  | cons d tl ih =>
    intro a ha
    cases hb : bestFor tl t with
    | none =>
      simp only [bestFor, hb] at h
      rcases List.mem_cons.mp ha with rfl | ha'
      · by_cases hc : caresAbout a t = true
        · rw [if_pos hc] at h
          exact absurd h (by simp)
        · simpa using hc
      · exact ih hb a ha'
    | some e =>
      simp only [bestFor, hb] at h
      by_cases hc : caresAbout d t = true
      · rw [if_pos hc] at h
        split at h <;> exact absurd h (by simp)
      · rw [if_neg hc] at h
        exact absurd h (by simp)

theorem bestFor_mem_cares {ds : List Directive} {t : String} {e : Directive}
    (h : bestFor ds t = some e) : e ∈ ds ∧ caresAbout e t = true := by
  induction ds generalizing e with
  | nil => simp [bestFor] at h
  | cons d tl ih =>
    cases hb : bestFor tl t with
    | none =>
      simp only [bestFor, hb] at h
      by_cases hc : caresAbout d t = true
      · rw [if_pos hc] at h
        injection h with h
        exact h ▸ ⟨List.mem_cons_self _ _, hc⟩
      · rw [if_neg hc] at h
        exact absurd h (by simp)
    | some e' =>
      simp only [bestFor, hb] at h
      obtain ⟨he', hc'⟩ := ih hb
      by_cases hc : caresAbout d t = true
      · rw [if_pos hc] at h
        by_cases hs : specOf e'.target > specOf d.target
        · rw [if_pos hs] at h
          injection h with h
          exact h ▸ ⟨List.mem_cons_of_mem _ he', hc'⟩
        · rw [if_neg hs] at h
          injection h with h
          exact h ▸ ⟨List.mem_cons_self _ _, hc⟩
      · rw [if_neg hc] at h
        injection h with h
        exact h ▸ ⟨List.mem_cons_of_mem _ he', hc'⟩

theorem bestFor_maximal {t : String} {ds : List Directive} {e : Directive}
    (h : bestFor ds t = some e) :
    ∀ a ∈ ds, caresAbout a t = true → specOf a.target ≤ specOf e.target := by
  induction ds generalizing e with
  | nil => simp
  | cons d tl ih =>
    intro a ha hca
    cases hb : bestFor tl t with
    | none =>
      simp only [bestFor, hb] at h
      rcases List.mem_cons.mp ha with rfl | ha'
      · rw [if_pos hca] at h
        injection h with h
        exact h ▸ le_refl _
      · exact absurd hca (by simp [bestFor_eq_none hb a ha'])
    | some e' =>
      simp only [bestFor, hb] at h
      by_cases hc : caresAbout d t = true
      · rw [if_pos hc] at h
        by_cases hs : specOf e'.target > specOf d.target
        · rw [if_pos hs] at h
          injection h with h
          subst h
          rcases List.mem_cons.mp ha with rfl | ha'
          · exact le_of_lt hs
          · exact ih hb a ha' hca
        · rw [if_neg hs] at h
          injection h with h
          subst h
          rcases List.mem_cons.mp ha with rfl | ha'
          · exact le_refl _
          · exact le_trans (ih hb a ha' hca) (not_lt.mp hs)
      · rw [if_neg hc] at h
        injection h with h
        subst h
        rcases List.mem_cons.mp ha with rfl | ha'
        · exact absurd hca (by simp [hc])
        · exact ih hb a ha' hca

theorem bestFor_isSome {ds : List Directive} {t : String} {a : Directive}
    (ha : a ∈ ds) (hc : caresAbout a t = true) : ∃ e, bestFor ds t = some e := by
  induction ds with
  | nil => cases ha
  | cons d tl ih =>
    cases hb : bestFor tl t with
    | none =>
      rcases List.mem_cons.mp ha with rfl | ha'
      · exact ⟨a, by simp only [bestFor, hb]; rw [if_pos hc]⟩
      · obtain ⟨e, he⟩ := ih ha'
        rw [hb] at he
        exact absurd he (by simp)
    | some e' =>
      by_cases hcd : caresAbout d t = true
      · by_cases hs : specOf e'.target > specOf d.target
        · exact ⟨e', by simp only [bestFor, hb]; rw [if_pos hcd, if_pos hs]⟩
        · exact ⟨d, by simp only [bestFor, hb]; rw [if_pos hcd, if_neg hs]⟩
      · exact ⟨e', by simp only [bestFor, hb]; rw [if_neg hcd]⟩

/-- On a target-distinct list, a matching directive of maximal specificity is
the lookup result: equally specific matching directives have equal targets
(equal-length prefixes of the same string), hence are the same directive. -/
theorem bestFor_eq_of_max {ds : List Directive} {t : String} {d : Directive}
    (hnd : TargetsNodup ds) (hd : d ∈ ds) (hc : caresAbout d t = true)
    (hmax : ∀ e ∈ ds, caresAbout e t = true → specOf e.target ≤ specOf d.target) :
    bestFor ds t = some d := by
  obtain ⟨e, he⟩ := bestFor_isSome hd hc
  obtain ⟨hemem, hecares⟩ := bestFor_mem_cares he
  have h1 : specOf d.target ≤ specOf e.target := bestFor_maximal he d hd hc
  have h2 : specOf e.target ≤ specOf d.target := hmax e hemem hecares
  have hspec : specOf e.target = specOf d.target := le_antisymm h2 h1
  by_cases hde : e = d
  · exact hde ▸ he
  · exfalso
    have hsymm : Symmetric (fun a b : Directive => a.target ≠ b.target) :=
      fun _ _ hab hba => hab hba.symm
    have hne : e.target ≠ d.target := List.Pairwise.forall hsymm hnd hemem hd hde
    cases het : e.target with
    | none =>
      cases hdt : d.target with
      | none => exact hne (het.trans hdt.symm)
      | some q => rw [het, hdt] at hspec; simp [specOf] at hspec
    | some p =>
      cases hdt : d.target with
      | none => rw [het, hdt] at hspec; simp [specOf] at hspec
      | some q =>
        rw [het, hdt] at hspec
        simp only [specOf, Nat.add_right_cancel_iff] at hspec
        simp only [caresAbout, het] at hecares
        simp only [caresAbout, hdt] at hc
        have hpp : p.data <+: t.data := List.isPrefixOf_iff_prefix.mp hecares
        have hqq : q.data <+: t.data := List.isPrefixOf_iff_prefix.mp hc
        have hlen : p.data.length = q.data.length := hspec
        have hdata : p.data = q.data :=
          List.IsPrefix.eq_of_length
            (List.prefix_of_prefix_length_le hpp hqq (le_of_eq hlen)) hlen
        have hpq : p = q := by
          cases p; cases q; exact congrArg String.mk hdata
        exact hne (het.trans (by rw [hpq, hdt]))

/-- A directive targeted exactly at the event's target is the lookup result. -/
theorem bestFor_exact {ds : List Directive} {t : String} {lv : Nat}
    (hnd : TargetsNodup ds) (hd : (⟨some t, lv⟩ : Directive) ∈ ds) :
    bestFor ds t = some ⟨some t, lv⟩ := by
  refine bestFor_eq_of_max hnd hd ?_ ?_
  · simp only [caresAbout]
    exact List.isPrefixOf_iff_prefix.mpr (List.prefix_refl _)
  · intro e he hce
    cases het : e.target with
    | none => simp [specOf]
    | some p =>
      simp only [caresAbout, het] at hce
      have hpp : p.data <+: t.data := List.isPrefixOf_iff_prefix.mp hce
      have hlen : p.data.length ≤ t.data.length := hpp.length_le
      simp only [specOf, het]
      exact Nat.succ_le_succ hlen

/-- An untargeted directive is the lookup result when every matching directive
is untargeted. -/
theorem bestFor_none_target {ds : List Directive} {t : String} {m : Nat}
    (hnd : TargetsNodup ds) (hd : (⟨none, m⟩ : Directive) ∈ ds)
    (hno : ∀ e ∈ ds, caresAbout e t = true → e.target = none) :
    bestFor ds t = some ⟨none, m⟩ := by
  refine bestFor_eq_of_max hnd hd rfl ?_
  intro e he hce
  simp [hno e he hce, specOf]

theorem targetsNodup_foldl (ds : List Directive) :
    ∀ acc, TargetsNodup acc → TargetsNodup (ds.foldl addDirective acc) := by
  induction ds with
  | nil => exact fun _ h => h
  | cons d tl ih => exact fun acc h => ih _ (targetsNodup_addDirective d h)

theorem targetsNodup_fromEnvLossy (level : Nat) (env : Option (List Directive)) :
    TargetsNodup (fromEnvLossy level env) := by
  cases env with
  | none => simp [fromEnvLossy, TargetsNodup]
  | some ds =>
    simp only [fromEnvLossy]
    split
    · simp [TargetsNodup]
    · exact targetsNodup_foldl ds [] List.Pairwise.nil

theorem targetsNodup_env_filter (v : Nat) (env : Option (List Directive)) (level : Nat) :
    TargetsNodup (env_filter v env level) := by
  unfold env_filter withNoiseDirectives applyOverride
  have hbase :=
    targetsNodup_addDirective ⟨some "h2", 2⟩
      (targetsNodup_addDirective ⟨some "hyper", 2⟩
        (targetsNodup_addDirective ⟨some "reqwest", 1⟩
          (targetsNodup_fromEnvLossy level env)))
  cases levelOverride v with
  | none => exact hbase
  | some m => exact targetsNodup_addDirective _ hbase

theorem noise_mem_env_filter (v : Nat) (env : Option (List Directive)) (level : Nat) :
    (⟨some "reqwest", 1⟩ : Directive) ∈ env_filter v env level ∧
    (⟨some "hyper", 2⟩ : Directive) ∈ env_filter v env level ∧
    (⟨some "h2", 2⟩ : Directive) ∈ env_filter v env level := by
  unfold env_filter withNoiseDirectives applyOverride
  have hr :
      (⟨some "reqwest", 1⟩ : Directive) ∈
        addDirective (addDirective (addDirective (fromEnvLossy level env)
          ⟨some "reqwest", 1⟩) ⟨some "hyper", 2⟩) ⟨some "h2", 2⟩ :=
    mem_addDirective_of_ne _
      (mem_addDirective_of_ne _ (mem_addDirective_self _ _) (by decide)) (by decide)
  have hh :
      (⟨some "hyper", 2⟩ : Directive) ∈
        addDirective (addDirective (addDirective (fromEnvLossy level env)
          ⟨some "reqwest", 1⟩) ⟨some "hyper", 2⟩) ⟨some "h2", 2⟩ :=
    mem_addDirective_of_ne _ (mem_addDirective_self _ _) (by decide)
  have h2 :
      (⟨some "h2", 2⟩ : Directive) ∈
        addDirective (addDirective (addDirective (fromEnvLossy level env)
          ⟨some "reqwest", 1⟩) ⟨some "hyper", 2⟩) ⟨some "h2", 2⟩ :=
    mem_addDirective_self _ _
  cases levelOverride v with
  | none => exact ⟨hr, hh, h2⟩
  | some m =>
    exact ⟨mem_addDirective_of_ne _ hr (by simp),
      mem_addDirective_of_ne _ hh (by simp),
      mem_addDirective_of_ne _ h2 (by simp)⟩

/-! ## Claim theorems -/

/-- C1: with `is_ansi = false` the terminal formatter's output is determined by
the event's level: ERROR yields the literal `" ERROR "` label, one space and
the message; WARN the literal `" WARNING "` label, one space and the message;
INFO exactly the message; DEBUG/TRACE the timestamp, `" [<LEVEL>] <target>: "`
and the message; every line ends in a newline.  In particular an ERROR event
with message "task failed" renders `" ERROR  task failed\n"` and an INFO event
with message "build finished" renders `"build finished\n"`. -/
theorem C1_terminal_format (now target msg : String) :
    format_event false now ⟨.error, target, [("message", msg)]⟩
        = " ERROR " ++ " " ++ msg ++ "\n" ∧
    format_event false now ⟨.warn, target, [("message", msg)]⟩
        = " WARNING " ++ " " ++ msg ++ "\n" ∧
    format_event false now ⟨.info, target, [("message", msg)]⟩ = msg ++ "\n" ∧
    format_event false now ⟨.debug, target, [("message", msg)]⟩
        = now ++ " [DEBUG] " ++ target ++ ": " ++ msg ++ "\n" ∧
    format_event false now ⟨.trace, target, [("message", msg)]⟩
        = now ++ " [TRACE] " ++ target ++ ": " ++ msg ++ "\n" ∧
    format_event false now ⟨.error, target, [("message", "task failed")]⟩
        = " ERROR  task failed\n" ∧
    format_event false now ⟨.info, target, [("message", "build finished")]⟩
        = "build finished\n" := by
  refine ⟨rfl, rfl, rfl, ?_, ?_, rfl, rfl⟩
  · show now ++ " [" ++ "DEBUG" ++ "] " ++ target ++ ": " ++ (msg ++ "\n")
        = now ++ " [DEBUG] " ++ target ++ ": " ++ msg ++ "\n"
    rw [show (" [DEBUG] " : String) = " [" ++ "DEBUG" ++ "] " from rfl]
    simp only [String.append_assoc]
  · show now ++ " [" ++ "TRACE" ++ "] " ++ target ++ ": " ++ (msg ++ "\n")
        = now ++ " [TRACE] " ++ target ++ ": " ++ msg ++ "\n"
    rw [show (" [TRACE] " : String) = " [" ++ "TRACE" ++ "] " from rfl]
    simp only [String.append_assoc]

/-- C3: evaluation of the daemon (file) sink's filter,
`env_filter(LevelFilter::INFO)` with verbosity 0 and `TURBO_LOG_VERBOSITY`
unset.  INFO events from the tool's own `turborepo` target are admitted, but —
contrary to the claim and to the doc comment on `DaemonLogFiltered`, which
promise a dedicated rule admitting levels down to TRACE for `turborepo`
targets — DEBUG and TRACE events from `turborepo` are rejected: the filter
built in `new_with_verbosity` contains no `turborepo`-targeted directive. -/
theorem C3_daemon_filter_turborepo :
    enabledAt (daemonFilter 0 none) "turborepo" .info = true ∧
    enabledAt (daemonFilter 0 none) "turborepo" .debug = false ∧
    enabledAt (daemonFilter 0 none) "turborepo" .trace = false := by decide

/-- C5: when `set_daemon_logger` or `enable_chrome_tracing` returns an error
(the only failure source is the reload of the sink slot, which fails when the
subscriber is gone and mutates nothing), the state is unchanged: the old layer
stays installed and the old guard stays held, because the new guard is stored
only after the reload has succeeded. -/
theorem C5_failed_enable_preserves_state (st : TurboState)
    (appender : RollingFileAppender) (to_file : String) (include_args alive : Bool) :
    ((set_daemon_logger st appender alive).1.isOk = false →
      (set_daemon_logger st appender alive).2 = st) ∧
    ((enable_chrome_tracing st to_file include_args alive).1.isOk = false →
      (enable_chrome_tracing st to_file include_args alive).2 = st) := by
  cases alive <;>
    constructor <;>
      intro h <;>
        simp_all [set_daemon_logger, enable_chrome_tracing, Except.isOk, Except.toBool]

/-- Witness for C5 at a concrete state with the subscriber torn down. -/
theorem C5_witness :
    (set_daemon_logger ⟨none, none, none, none, some 0⟩ ⟨7⟩ false).2
        = ⟨none, none, none, none, some 0⟩ ∧
    (enable_chrome_tracing ⟨none, none, none, none, some 0⟩ "trace.json" true false).2
        = ⟨none, none, none, none, some 0⟩ := by
  have h :=
    C5_failed_enable_preserves_state ⟨none, none, none, none, some 0⟩ ⟨7⟩
      "trace.json" true false
  exact ⟨h.1 rfl, h.2 rfl⟩

/-- C6: the drop body never panics for any outcome of the report build, the
pprof encoding, or the writing of the bytes — but contrary to the claim's
"never fatal", `File::create("pprof.pb").unwrap()` panics when creating the
report file fails. -/
theorem C6_drop_profiling_failures :
    (∀ pprofEnabled buildOk pprofOk encodeOk writeOk,
      (turboDrop pprofEnabled buildOk true pprofOk encodeOk writeOk).panicked = false) ∧
    (turboDrop true true false true true true).panicked = true := by decide

/-- C7: contrary to the claim, when `report.pprof()` fails the drop body
returns early: the OpenTelemetry guard is not taken and
`shutdown_tracer_provider()` is never called; on the report-build-failure path
and with profiling disabled the shutdown does run. -/
theorem C7_drop_shutdown :
    ((turboDrop true true true false true true).otelGuardTaken = false ∧
      (turboDrop true true true false true true).tracerShutdown = false) ∧
    (∀ encodeOk writeOk,
      (turboDrop true true true true encodeOk writeOk).tracerShutdown = true ∧
      (turboDrop true true true true encodeOk writeOk).otelGuardTaken = true) ∧
    (∀ createOk pprofOk encodeOk writeOk,
      (turboDrop true false createOk pprofOk encodeOk writeOk).tracerShutdown = true) ∧
    (∀ buildOk createOk pprofOk encodeOk writeOk,
      (turboDrop false buildOk createOk pprofOk encodeOk writeOk).tracerShutdown = true) := by
  decide

/-- C8: `enable_opentelemetry_tracing` returns `Ok(())` and performs no
effect: every slot and guard of the pipeline state is left unchanged, for
every state and every `OtelConfig`. -/
theorem C8_enable_opentelemetry_noop (st : TurboState) (config : OtelConfig) :
    enable_opentelemetry_tracing st config = (Except.ok (), st) := rfl

/-- C9: `OtelConfig::flatten` returns `Some((destination, traceparent))`
exactly when `destination` is `Some`, and `None` whenever `destination` is
`None` — a traceparent without a destination never surfaces. -/
theorem C9_flatten (c : OtelConfig) (d : String) (tp : Option String) :
    (c.flatten = some (d, tp) ↔ c.destination = some d ∧ tp = c.traceparent) ∧
    (c.destination = none → c.flatten = none) := by
  obtain ⟨tp', dst⟩ := c
  cases dst <;> simp [OtelConfig.flatten] <;> aesop

/-- Witness for C9 at a config with a traceparent but no destination. -/
theorem C9_flatten_witness :
    (OtelConfig.mk (some "00-traceparent") none).flatten = none :=
  (C9_flatten ⟨some "00-traceparent", none⟩ "x" none).2 rfl

/-- C2: in every filter built by the `env_filter` closure of
`new_with_verbosity` — for any verbosity, any default level and any
`TURBO_LOG_VERBOSITY` contents — events from the targets `reqwest`, `hyper`
and `h2` with a level below WARN are rejected: the fixed directives
(`reqwest=error`, `hyper=warn`, `h2=warn`) replace any same-target directive
the environment requested (even `TRACE`) and are the most specific match for
those targets. -/
theorem C2_noise_capped (verbosity level : Nat) (env : Option (List Directive))
    (t : String) (l : TraceLevel)
    (ht : t = "reqwest" ∨ t = "hyper" ∨ t = "h2") (hl : 2 < l.toNat) :
    enabledAt (env_filter verbosity env level) t l = false := by
  have hnd := targetsNodup_env_filter verbosity env level
  obtain ⟨hr, hh, h2m⟩ := noise_mem_env_filter verbosity env level
  rcases ht with rfl | rfl | rfl
  · rw [enabledAt, bestFor_exact hnd hr]
    simp only [decide_eq_false_iff_not]
    omega
  · rw [enabledAt, bestFor_exact hnd hh]
    simp only [decide_eq_false_iff_not]
    omega
  · rw [enabledAt, bestFor_exact hnd h2m]
    simp only [decide_eq_false_iff_not]
    omega

/-- Witness for C2: verbosity 0, environment override requesting TRACE for
`hyper`; a DEBUG event from `hyper` is still rejected. -/
theorem C2_noise_capped_witness :
    enabledAt (env_filter 0 (some [⟨some "hyper", 5⟩]) 2) "hyper" .debug = false :=
  C2_noise_capped 0 2 (some [⟨some "hyper", 5⟩]) "hyper" .debug
    (Or.inr (Or.inl rfl)) (by decide)

/-- C4: the verbosity override of `env_filter`: verbosity 0 adds no override
directive; 1 maps to INFO, 2 to DEBUG, and any value ≥ 3 to TRACE; a nonzero
verbosity only adds a single untargeted directive (which becomes the default
threshold whenever no per-target rule matches), and the per-target directives
— in particular those supplied by the environment string — are untouched, and
whenever one of them is the most specific match the filtering decision is the
same as with verbosity 0. -/
theorem C4_verbosity_override (v level : Nat) (env : Option (List Directive))
    (t : String) (l : TraceLevel) :
    (levelOverride 0 = none ∧
      env_filter 0 env level = withNoiseDirectives (fromEnvLossy level env)) ∧
    (levelOverride 1 = some 3 ∧ levelOverride 2 = some 4 ∧
      ∀ w, 3 ≤ w → levelOverride w = some 5) ∧
    (∀ m, levelOverride v = some m →
      env_filter v env level = addDirective (env_filter 0 env level) ⟨none, m⟩) ∧
    (∀ m, levelOverride v = some m →
      (∀ e ∈ env_filter v env level, caresAbout e t = true → e.target = none) →
      enabledAt (env_filter v env level) t l = decide (l.toNat ≤ m)) ∧
    (∀ e, bestFor (env_filter 0 env level) t = some e → e.target ≠ none →
      enabledAt (env_filter v env level) t l
        = enabledAt (env_filter 0 env level) t l) := by
  have hstruct : ∀ m, levelOverride v = some m →
      env_filter v env level = addDirective (env_filter 0 env level) ⟨none, m⟩ := by
    intro m hov
    show applyOverride (withNoiseDirectives (fromEnvLossy level env)) (levelOverride v)
        = addDirective (env_filter 0 env level) ⟨none, m⟩
    rw [hov]
    rfl
  refine ⟨⟨rfl, rfl⟩, ⟨rfl, rfl, ?_⟩, hstruct, ?_, ?_⟩
  · intro w hw
    obtain ⟨w', rfl⟩ : ∃ w', w = w' + 3 := ⟨w - 3, by omega⟩
    rfl
  · intro m hov hno
    have hnd := targetsNodup_env_filter v env level
    have hmem : (⟨none, m⟩ : Directive) ∈ env_filter v env level := by
      rw [hstruct m hov]
      exact mem_addDirective_self _ _
    rw [enabledAt, bestFor_none_target hnd hmem hno]
  · intro e hbest hnone
    obtain ⟨hemem, hecares⟩ := bestFor_mem_cares hbest
    cases hov : levelOverride v with
    | none =>
      have : env_filter v env level = env_filter 0 env level := by
        show applyOverride (withNoiseDirectives (fromEnvLossy level env)) (levelOverride v)
            = env_filter 0 env level
        rw [hov]
        rfl
      rw [this]
    | some m =>
      have hnd := targetsNodup_env_filter v env level
      have hemem' : e ∈ env_filter v env level := by
        rw [hstruct m hov]
        exact mem_addDirective_of_ne _ hemem (by simpa using hnone)
      have hmax0 := bestFor_maximal hbest
      have hbest' : bestFor (env_filter v env level) t = some e := by
        refine bestFor_eq_of_max hnd hemem' hecares ?_
        intro a ha hca
        rw [hstruct m hov] at ha
        rcases mem_of_mem_addDirective ha with rfl | ⟨ha0, _⟩
        · simp [specOf]
        · exact hmax0 a ha0 hca
      rw [enabledAt, hbest', enabledAt, hbest]

/-- Witness for C4: verbosity 2 with an environment rule `mymod=error`; an
unmatched target is admitted at DEBUG by the raised default, while for a
target matching the environment rule the decision is the same as with
verbosity 0. -/
theorem C4_verbosity_override_witness :
    enabledAt (env_filter 2 (some [⟨some "mymod", 1⟩]) 2) "elsewhere" .debug = true ∧
    enabledAt (env_filter 2 (some [⟨some "mymod", 1⟩]) 2) "mymodx" .debug
      = enabledAt (env_filter 0 (some [⟨some "mymod", 1⟩]) 2) "mymodx" .debug := by
  constructor
  · have h := C4_verbosity_override 2 2 (some [⟨some "mymod", 1⟩]) "elsewhere" .debug
    have h4 := h.2.2.2.1 4 rfl (by decide)
    simpa using h4
  · have h := C4_verbosity_override 2 2 (some [⟨some "mymod", 1⟩]) "mymodx" .debug
    exact h.2.2.2.2 ⟨some "mymod", 1⟩ (by decide) (by simp)

/-- C10: for every wrapper built by `WrapperAssetVc::new`, `path()` is the
wrapped asset's path joined with `wrapper_name`, `content()` is exactly the
content supplied at construction (independent of the wrapped asset's own
content), and `references()` is the empty reference set. -/
theorem C10_wrapper_asset (a : AssetRecord) (n : String) (c : AssetContent) :
    (WrapperAsset.new a n c).toAsset.path = a.path.join n ∧
    (WrapperAsset.new a n c).toAsset.content = c ∧
    (WrapperAsset.new a n c).toAsset.references = AssetReferences.empty :=
  ⟨rfl, rfl, rfl⟩

end Turbo
